import Mathlib

/-!
Shallow embedding of `src/config.rs` from the anevicon repository:
the configuration-validation front end (`ArgsConfig::from_matches`),
its error taxonomy (`ArgsConfigError`, `PacketLengthError`) and the
`Display` implementations.

Modelling conventions:
* `ArgMatches` is the abstract named-argument source: `value_of` returns
  `Option String`, `none` meaning the key is absent.  The Rust code calls
  `.unwrap()` on each lookup, which panics on `None`; a panic is modelled
  by the outer `Option` of `from_matches`'s result being `none`.
* The socket-address parser (`std::net::SocketAddr::from_str`) and the
  humantime duration parser (`humantime::parse_duration`) are external
  library functions, abstracted as the fields of a `Parsers` record.
* The unsigned-integer parser (`usize::from_str`, i.e. `str::parse`) is
  modelled concretely (`parseUsize`) after Rust's `from_str_radix` for an
  unsigned 64-bit word: optional leading `+`, decimal digits, overflow
  checked against `2^64 - 1`.
* Machine integers are `Nat` with the explicit bound `USIZE_MAX`.
-/

namespace Anevicon

/-- `std::net::SocketAddr` — its internal structure is irrelevant here,
only equality matters. -/
structure SocketAddr where
  ip : List Nat
  port : Nat
deriving DecidableEq, Repr

/-- `std::time::Duration`. -/
structure Duration where
  secs : Nat
  nanos : Nat
deriving DecidableEq, Repr

/-- `std::net::AddrParseError`, abstracted to its display message. -/
structure AddrParseError where
  msg : String
deriving DecidableEq, Repr

/-- `humantime::DurationError`, abstracted to its display message. -/
structure DurationError where
  msg : String
deriving DecidableEq, Repr

/-- The kinds of `std::num::ParseIntError`. -/
inductive IntErrorKind where
  | Empty
  | InvalidDigit
  | PosOverflow
  | NegOverflow
  | Zero
deriving DecidableEq, Repr

/-- `std::num::ParseIntError`. -/
structure ParseIntError where
  kind : IntErrorKind
deriving DecidableEq, Repr

/-- `pub const MIN_PACKET_LENGTH: usize = 1;` -/
def MIN_PACKET_LENGTH : Nat := 1

/-- `pub const MAX_PACKET_LENGTH: usize = 65000;` -/
def MAX_PACKET_LENGTH : Nat := 65000

/-- The largest value of `usize` on a 64-bit platform. -/
def USIZE_MAX : Nat := 2 ^ 64 - 1

/-- `char::to_digit(10)`: the numeric value of a decimal digit character. -/
def digitVal (c : Char) : Option Nat :=
  if '0' ≤ c ∧ c ≤ '9' then some (c.toNat - '0'.toNat) else none

/-- The digit-accumulation loop of Rust's `from_str_radix` for an unsigned
64-bit integer: each character must be a decimal digit (else
`InvalidDigit`), and the accumulator is overflow-checked against
`USIZE_MAX` (else `PosOverflow`). -/
def fromStrRadixLoop : List Char → Nat → Except ParseIntError Nat
  | [], acc => Except.ok acc
  | c :: cs, acc =>
    match digitVal c with
    | none => Except.error ⟨IntErrorKind.InvalidDigit⟩
    | some d =>
      let acc' := acc * 10 + d
      if USIZE_MAX < acc' then Except.error ⟨IntErrorKind.PosOverflow⟩
      else fromStrRadixLoop cs acc'

/-- `usize::from_str` (`str::parse::<usize>()`), modelled after Rust's
`from_str_radix` with radix 10 on an unsigned 64-bit type: the empty
string is `Empty`; a single leading `+` is skipped (a bare `+` is
`InvalidDigit`; `-` is not accepted for an unsigned type and fails as a
non-digit); then the digit loop runs. -/
def parseUsize (s : String) : Except ParseIntError Nat :=
  match s.toList with
  | [] => Except.error ⟨IntErrorKind.Empty⟩
  | c :: cs =>
    let digits := if c = '+' then cs else c :: cs
    if digits.isEmpty then Except.error ⟨IntErrorKind.InvalidDigit⟩
    else fromStrRadixLoop digits 0

/-- `pub enum PacketLengthError`. -/
inductive PacketLengthError where
  | InvalidFormat (error : ParseIntError)
  | Overflow
  | Underflow
deriving DecidableEq, Repr

/-- `pub enum ArgsConfigError`. -/
inductive ArgsConfigError where
  | Receiver (error : AddrParseError)
  | Sender (error : AddrParseError)
  | Duration (error : DurationError)
  | Length (error : PacketLengthError)
  | Waiting (error : DurationError)
  | Periodicity (error : DurationError)
deriving DecidableEq, Repr

/-- `pub struct ArgsConfig`. -/
structure ArgsConfig where
  receiver : SocketAddr
  sender : SocketAddr
  duration : Duration
  length : Nat
  waiting : Duration
  periodicity : Duration
deriving DecidableEq, Repr

/-- The primitive parsers supplied by the platform/library layer:
`SocketAddr::from_str` and `humantime::parse_duration`. -/
structure Parsers where
  parseSocketAddr : String → Except AddrParseError SocketAddr
  parse_duration : String → Except DurationError Duration

/-- `clap::ArgMatches`, abstracted to the `value_of` lookup. -/
structure ArgMatches where
  value_of : String → Option String

/-- `ArgsConfig::from_matches`.  The outer `Option` models panics: a
`none` result is the `unwrap()` panic on a missing argument value.
Field order follows the Rust source exactly: `length` is parsed and
range-checked first with early returns, then the struct literal
evaluates `receiver`, `sender`, `duration`, `waiting`, `periodicity`
in textual order, each `?` propagating the first error. -/
def from_matches (P : Parsers) (m : ArgMatches) :
    Option (Except ArgsConfigError ArgsConfig) :=
  match m.value_of "length" with
  | none => none
  | some rawLength =>
    match parseUsize rawLength with
    | Except.error e =>
      some (Except.error (ArgsConfigError.Length (PacketLengthError.InvalidFormat e)))
    | Except.ok length =>
      if length < MIN_PACKET_LENGTH then
        some (Except.error (ArgsConfigError.Length PacketLengthError.Underflow))
      else if MAX_PACKET_LENGTH < length then
        some (Except.error (ArgsConfigError.Length PacketLengthError.Overflow))
      else
        match m.value_of "receiver" with
        | none => none
        | some rawReceiver =>
          match P.parseSocketAddr rawReceiver with
          | Except.error e => some (Except.error (ArgsConfigError.Receiver e))
          | Except.ok receiver =>
            match m.value_of "sender" with
            | none => none
            | some rawSender =>
              match P.parseSocketAddr rawSender with
              | Except.error e => some (Except.error (ArgsConfigError.Sender e))
              | Except.ok sender =>
                match m.value_of "duration" with
                | none => none
                | some rawDuration =>
                  match P.parse_duration rawDuration with
                  | Except.error e => some (Except.error (ArgsConfigError.Duration e))
                  | Except.ok duration =>
                    match m.value_of "waiting" with
                    | none => none
                    | some rawWaiting =>
                      match P.parse_duration rawWaiting with
                      | Except.error e => some (Except.error (ArgsConfigError.Waiting e))
                      | Except.ok waiting =>
                        match m.value_of "periodicity" with
                        | none => none
                        | some rawPeriodicity =>
                          match P.parse_duration rawPeriodicity with
                          | Except.error e =>
                            some (Except.error (ArgsConfigError.Periodicity e))
                          | Except.ok periodicity =>
                            some (Except.ok
                              { receiver := receiver
                                sender := sender
                                duration := duration
                                length := length
                                waiting := waiting
                                periodicity := periodicity })

/-- `Display` of `std::num::ParseIntError` (the messages of the Rust
standard library, keyed by kind). -/
def ParseIntError.display (e : ParseIntError) : String :=
  match e.kind with
  | IntErrorKind.Empty => "cannot parse integer from empty string"
  | IntErrorKind.InvalidDigit => "invalid digit found in string"
  | IntErrorKind.PosOverflow => "number too large to fit in target type"
  | IntErrorKind.NegOverflow => "number too small to fit in target type"
  | IntErrorKind.Zero => "number would be zero for non-zero type"

/-- `Display` of `std::net::AddrParseError`: its message. -/
def AddrParseError.display (e : AddrParseError) : String := e.msg

/-- `Display` of `humantime::DurationError`: its message. -/
def DurationError.display (e : DurationError) : String := e.msg

/-- `impl Display for PacketLengthError` (config.rs, lines 127-135). -/
def PacketLengthError.display : PacketLengthError → String
  | PacketLengthError.InvalidFormat error => error.display
  | PacketLengthError.Overflow => "Overflow occurred"
  | PacketLengthError.Underflow => "Underflow occurred"

/-- `impl Display for ArgsConfigError` (config.rs, lines 90-116).  In
the `Length` arm the Rust string-literal line continuation `\` swallows
the newline and the following indentation, so the two sentences are
separated by exactly one space. -/
def ArgsConfigError.display : ArgsConfigError → String
  | ArgsConfigError.Receiver error =>
    "An invalid receiver address was specified: " ++ error.display ++ "!"
  | ArgsConfigError.Sender error =>
    "An invalid sender address was specified: " ++ error.display ++ "!"
  | ArgsConfigError.Duration error =>
    "An invalid duration format was specified: " ++ error.display ++ "!"
  | ArgsConfigError.Length error =>
    "An invalid packet length was specified: " ++ error.display ++
      ". A packet length must be in the range of [1; 65000]!"
  | ArgsConfigError.Waiting error =>
    "An invalid waiting duration was specified: " ++ error.display ++ "!"
  | ArgsConfigError.Periodicity error =>
    "An invalid periodicity was specified: " ++ error.display ++ "!"

/-- A concrete instance of the external socket-address parser, for
evaluating the development on concrete inputs: a small table of literal
endpoints; anything else fails like `SocketAddr::from_str` does. -/
def tableSocketAddr (s : String) : Except AddrParseError SocketAddr :=
  if s = "127.0.0.1:8080" then Except.ok ⟨[127, 0, 0, 1], 8080⟩
  else if s = "0.0.0.0:0" then Except.ok ⟨[0, 0, 0, 0], 0⟩
  else Except.error ⟨"invalid socket address syntax"⟩

/-- A concrete instance of the external duration parser: a small table
of humantime expressions; anything else fails. -/
def tableDuration (s : String) : Except DurationError Duration :=
  if s = "5s" then Except.ok ⟨5, 0⟩
  else if s = "7s" then Except.ok ⟨7, 0⟩
  else if s = "10ms" then Except.ok ⟨0, 10000000⟩
  else Except.error ⟨"time unit needed, for example 5sec or 5ms"⟩

/-- The concrete parser pack used by the concrete-input theorems. -/
def tableParsers : Parsers :=
  { parseSocketAddr := tableSocketAddr, parse_duration := tableDuration }

/-- A fully valid argument source over `tableParsers`. -/
def goodMatches : ArgMatches :=
  { value_of := fun s =>
      if s = "length" then some "1024"
      else if s = "receiver" then some "127.0.0.1:8080"
      else if s = "sender" then some "0.0.0.0:0"
      else if s = "duration" then some "5s"
      else if s = "waiting" then some "10ms"
      else if s = "periodicity" then some "7s"
      else none }

/-!
Correctness of the decimal representation: `parseUsize` recovers `n`
from `Nat.repr n`.  `Nat.toDigitsCore` is fuel-indexed, so we first
replace it by the fuel-free `decCharsAux` and prove everything there.
-/

/-- Fuel-free version of `Nat.toDigitsCore` at base 10. -/
def decCharsAux (n : Nat) (ds : List Char) : List Char :=
  if _h : n / 10 = 0 then Nat.digitChar (n % 10) :: ds
  else decCharsAux (n / 10) (Nat.digitChar (n % 10) :: ds)
termination_by n
decreasing_by omega

/-- The numeric value read off a digit list, starting from `acc` —
exactly the accumulator computed by `fromStrRadixLoop` when no error
occurs. -/
def valList : List Char → Nat → Nat
  | [], acc => acc
  | c :: cs, acc => valList cs (acc * 10 + (c.toNat - Char.toNat '0'))

theorem decCharsAux_ne_nil (n : Nat) : ∀ ds, decCharsAux n ds ≠ [] := by
  induction n using Nat.strong_induction_on with
  | _ n ih =>
    intro ds
    rw [decCharsAux]
    by_cases h : n / 10 = 0
    · simp [h]
    · simpa [h] using ih (n / 10) (by omega) (Nat.digitChar (n % 10) :: ds)

theorem decCharsAux_eq_pos (n : Nat) (ds : List Char) (h : n / 10 = 0) :
    decCharsAux n ds = Nat.digitChar (n % 10) :: ds := by
  rw [decCharsAux, dif_pos h]

theorem decCharsAux_eq_neg (n : Nat) (ds : List Char) (h : ¬n / 10 = 0) :
    decCharsAux n ds = decCharsAux (n / 10) (Nat.digitChar (n % 10) :: ds) := by
  rw [decCharsAux, dif_neg h]

theorem decCharsAux_append (n : Nat) :
    ∀ ds, decCharsAux n ds = decCharsAux n [] ++ ds := by
  induction n using Nat.strong_induction_on with
  | _ n ih =>
    intro ds
    by_cases h : n / 10 = 0
    · rw [decCharsAux_eq_pos n ds h, decCharsAux_eq_pos n [] h]
      rfl
    · rw [decCharsAux_eq_neg n ds h, decCharsAux_eq_neg n [] h,
          ih (n / 10) (by omega) (Nat.digitChar (n % 10) :: ds),
          ih (n / 10) (by omega) [Nat.digitChar (n % 10)]]
      simp

theorem valList_append (l1 l2 : List Char) (acc : Nat) :
    valList (l1 ++ l2) acc = valList l2 (valList l1 acc) := by
  induction l1 generalizing acc with
  | nil => rfl
  | cons c cs ih => simpa [valList] using ih (acc * 10 + (c.toNat - Char.toNat '0'))

theorem le_valList (l : List Char) (acc : Nat) : acc ≤ valList l acc := by
  induction l generalizing acc with
  | nil => exact Nat.le_refl acc
  | cons c cs ih =>
    calc acc ≤ acc * 10 + (c.toNat - Char.toNat '0') := by omega
    _ ≤ valList cs (acc * 10 + (c.toNat - Char.toNat '0')) := ih _
    _ = valList (c :: cs) acc := rfl

theorem digitVal_digitChar (d : Nat) (h : d < 10) :
    digitVal (Nat.digitChar d) = some d := by
  interval_cases d <;> rfl

theorem toNat_digitChar (d : Nat) (h : d < 10) :
    (Nat.digitChar d).toNat - Char.toNat '0' = d := by
  interval_cases d <;> rfl

theorem digitChar_ne_plus (d : Nat) (h : d < 10) : Nat.digitChar d ≠ '+' := by
  interval_cases d <;> decide

theorem decCharsAux_mem (n : Nat) :
    ∀ c ∈ decCharsAux n [], ∃ d, d < 10 ∧ c = Nat.digitChar d := by
  induction n using Nat.strong_induction_on with
  | _ n ih =>
    intro c hc
    rw [decCharsAux] at hc
    by_cases h : n / 10 = 0
    · simp [h] at hc
      exact ⟨n % 10, by omega, hc⟩
    · rw [dif_neg h, decCharsAux_append] at hc
      rcases List.mem_append.mp hc with h1 | h2
      · exact ih (n / 10) (by omega) c h1
      · simp at h2
        exact ⟨n % 10, by omega, h2⟩

theorem valList_decCharsAux (n : Nat) :
    ∀ acc, valList (decCharsAux n []) acc =
      acc * 10 ^ (decCharsAux n []).length + n := by
  induction n using Nat.strong_induction_on with
  | _ n ih =>
    intro acc
    rw [decCharsAux]
    by_cases h : n / 10 = 0
    · have hn : n < 10 := by omega
      simp only [dif_pos h]
      show valList [] (acc * 10 + ((Nat.digitChar (n % 10)).toNat - Char.toNat '0')) =
        acc * 10 ^ (List.length [Nat.digitChar (n % 10)]) + n
      rw [toNat_digitChar (n % 10) (by omega), Nat.mod_eq_of_lt hn]
      simp [valList]
    · simp only [dif_neg h]
      rw [decCharsAux_append (n / 10), valList_append]
      rw [ih (n / 10) (by omega) acc]
      show valList []
        ((acc * 10 ^ (decCharsAux (n / 10) []).length + n / 10) * 10 +
          ((Nat.digitChar (n % 10)).toNat - Char.toNat '0')) = _
      rw [toNat_digitChar (n % 10) (by omega)]
      simp only [valList, List.length_append, List.length_cons, List.length_nil]
      have hd : n / 10 * 10 + n % 10 = n := by omega
      have key : (acc * 10 ^ (decCharsAux (n / 10) []).length + n / 10) * 10 + n % 10 =
          acc * 10 ^ ((decCharsAux (n / 10) []).length + (0 + 1)) +
            (n / 10 * 10 + n % 10) := by
        rw [pow_add]
        ring
      rw [key, hd]

theorem toDigitsCore_eq_decCharsAux :
    ∀ (fuel n : Nat), n < fuel → ∀ ds,
      Nat.toDigitsCore 10 fuel n ds = decCharsAux n ds := by
  intro fuel
  induction fuel with
  | zero => intro n h; omega
  | succ fuel ih =>
    intro n h ds
    rw [Nat.toDigitsCore, decCharsAux]
    by_cases h0 : n / 10 = 0
    · simp [h0]
    · simp only [h0, if_false, dif_neg, not_false_iff]
      exact ih (n / 10) (by omega) _

theorem fromStrRadixLoop_ok (l : List Char) :
    ∀ acc, (∀ c ∈ l, ∃ d, d < 10 ∧ c = Nat.digitChar d) →
      valList l acc ≤ USIZE_MAX →
      fromStrRadixLoop l acc = Except.ok (valList l acc) := by
  induction l with
  | nil => intro acc _ _; rfl
  | cons c cs ih =>
    intro acc hd hle
    obtain ⟨d, hd10, hcd⟩ := hd c (List.mem_cons_self c cs)
    subst hcd
    have hvl : valList (Nat.digitChar d :: cs) acc = valList cs (acc * 10 + d) := by
      show valList cs (acc * 10 + ((Nat.digitChar d).toNat - Char.toNat '0')) = _
      rw [toNat_digitChar d hd10]
    rw [hvl] at hle ⊢
    have hacc : acc * 10 + d ≤ USIZE_MAX := le_trans (le_valList cs _) hle
    simp only [fromStrRadixLoop, digitVal_digitChar d hd10]
    rw [if_neg (by omega)]
    exact ih (acc * 10 + d) (fun c hc => hd c (List.mem_cons_of_mem _ hc)) hle

theorem parseUsize_toList_cons (s : String) (c : Char) (cs : List Char)
    (hs : s.toList = c :: cs) (hc : c ≠ '+') :
    parseUsize s = fromStrRadixLoop (c :: cs) 0 := by
  unfold parseUsize
  rw [hs]
  simp [hc]

/-- `parseUsize` inverts `Nat.repr` on every representable value. -/
theorem parseUsize_repr (n : Nat) (h : n ≤ USIZE_MAX) :
    parseUsize (Nat.repr n) = Except.ok n := by
  have hrepr : (Nat.repr n).toList = decCharsAux n [] := by
    show (List.asString (Nat.toDigits 10 n)).toList = _
    rw [Nat.toDigits, toDigitsCore_eq_decCharsAux (n + 1) n (by omega),
      List.toList_asString]
  have hval : valList (decCharsAux n []) 0 = n := by
    rw [valList_decCharsAux n 0]
    simp
  have hloop : fromStrRadixLoop (decCharsAux n []) 0 = Except.ok n := by
    rw [fromStrRadixLoop_ok _ 0 (decCharsAux_mem n) (by rw [hval]; exact h), hval]
  obtain ⟨c, cs, hcons⟩ : ∃ c cs, decCharsAux n [] = c :: cs := by
    cases hl : decCharsAux n [] with
    | nil => exact absurd hl (decCharsAux_ne_nil n [])
    | cons c cs => exact ⟨c, cs, rfl⟩
  have hcplus : c ≠ '+' := by
    obtain ⟨d, hd10, hcd⟩ := decCharsAux_mem n c (by rw [hcons]; simp)
    rw [hcd]
    exact digitChar_ne_plus d hd10
  rw [parseUsize_toList_cons _ c cs (hrepr.trans hcons) hcplus, ← hcons, hloop]

/-- The success path of `from_matches`: when every lookup yields a value,
the length parses into range, and every primitive parser succeeds, the
result is `Ok` with exactly the parsed values. -/
theorem from_matches_ok_of (P : Parsers) (m : ArgMatches)
    (rawL rawR rawS rawD rawW rawP : String) (n : Nat)
    (recv send : SocketAddr) (dur wait per : Duration)
    (hL : m.value_of "length" = some rawL)
    (hpL : parseUsize rawL = Except.ok n)
    (hn1 : MIN_PACKET_LENGTH ≤ n) (hn2 : n ≤ MAX_PACKET_LENGTH)
    (hR : m.value_of "receiver" = some rawR)
    (hpR : P.parseSocketAddr rawR = Except.ok recv)
    (hS : m.value_of "sender" = some rawS)
    (hpS : P.parseSocketAddr rawS = Except.ok send)
    (hD : m.value_of "duration" = some rawD)
    (hpD : P.parse_duration rawD = Except.ok dur)
    (hW : m.value_of "waiting" = some rawW)
    (hpW : P.parse_duration rawW = Except.ok wait)
    (hP : m.value_of "periodicity" = some rawP)
    (hpP : P.parse_duration rawP = Except.ok per) :
    from_matches P m = some (Except.ok
      { receiver := recv, sender := send, duration := dur,
        length := n, waiting := wait, periodicity := per }) := by
  simp [from_matches, hL, hpL, Nat.not_lt.mpr hn1, Nat.not_lt.mpr hn2,
    hR, hpR, hS, hpS, hD, hpD, hW, hpW, hP, hpP]

/-- Claim C1: when two or more fields are invalid, `from_matches` returns
exactly one error — the one for the first invalid field in the order
length, receiver, sender, duration, waiting, periodicity.  Each conjunct
below constrains only the fields up to the failing one, so the fields
after it are not consulted at all (they may hold anything, or even be
absent).  In particular, when both length and receiver are invalid the
result is the `Length` error, never the `Receiver` one. -/
theorem from_matches_first_error (P : Parsers) (m : ArgMatches) :
    (∀ rawL e, m.value_of "length" = some rawL →
      parseUsize rawL = Except.error e →
      from_matches P m = some (Except.error
        (ArgsConfigError.Length (PacketLengthError.InvalidFormat e)))) ∧
    (∀ rawL n, m.value_of "length" = some rawL →
      parseUsize rawL = Except.ok n → n < MIN_PACKET_LENGTH →
      from_matches P m = some (Except.error
        (ArgsConfigError.Length PacketLengthError.Underflow))) ∧
    (∀ rawL n, m.value_of "length" = some rawL →
      parseUsize rawL = Except.ok n → MIN_PACKET_LENGTH ≤ n →
      MAX_PACKET_LENGTH < n →
      from_matches P m = some (Except.error
        (ArgsConfigError.Length PacketLengthError.Overflow))) ∧
    (∀ rawL n rawR e, m.value_of "length" = some rawL →
      parseUsize rawL = Except.ok n → MIN_PACKET_LENGTH ≤ n →
      n ≤ MAX_PACKET_LENGTH →
      m.value_of "receiver" = some rawR →
      P.parseSocketAddr rawR = Except.error e →
      from_matches P m = some (Except.error (ArgsConfigError.Receiver e))) ∧
    (∀ rawL n rawR recv rawS e, m.value_of "length" = some rawL →
      parseUsize rawL = Except.ok n → MIN_PACKET_LENGTH ≤ n →
      n ≤ MAX_PACKET_LENGTH →
      m.value_of "receiver" = some rawR →
      P.parseSocketAddr rawR = Except.ok recv →
      m.value_of "sender" = some rawS →
      P.parseSocketAddr rawS = Except.error e →
      from_matches P m = some (Except.error (ArgsConfigError.Sender e))) ∧
    (∀ rawL n rawR recv rawS send rawD e, m.value_of "length" = some rawL →
      parseUsize rawL = Except.ok n → MIN_PACKET_LENGTH ≤ n →
      n ≤ MAX_PACKET_LENGTH →
      m.value_of "receiver" = some rawR →
      P.parseSocketAddr rawR = Except.ok recv →
      m.value_of "sender" = some rawS →
      P.parseSocketAddr rawS = Except.ok send →
      m.value_of "duration" = some rawD →
      P.parse_duration rawD = Except.error e →
      from_matches P m = some (Except.error (ArgsConfigError.Duration e))) ∧
    (∀ rawL n rawR recv rawS send rawD dur rawW e,
      m.value_of "length" = some rawL →
      parseUsize rawL = Except.ok n → MIN_PACKET_LENGTH ≤ n →
      n ≤ MAX_PACKET_LENGTH →
      m.value_of "receiver" = some rawR →
      P.parseSocketAddr rawR = Except.ok recv →
      m.value_of "sender" = some rawS →
      P.parseSocketAddr rawS = Except.ok send →
      m.value_of "duration" = some rawD →
      P.parse_duration rawD = Except.ok dur →
      m.value_of "waiting" = some rawW →
      P.parse_duration rawW = Except.error e →
      from_matches P m = some (Except.error (ArgsConfigError.Waiting e))) ∧
    (∀ rawL n rawR recv rawS send rawD dur rawW wait rawP e,
      m.value_of "length" = some rawL →
      parseUsize rawL = Except.ok n → MIN_PACKET_LENGTH ≤ n →
      n ≤ MAX_PACKET_LENGTH →
      m.value_of "receiver" = some rawR →
      P.parseSocketAddr rawR = Except.ok recv →
      m.value_of "sender" = some rawS →
      P.parseSocketAddr rawS = Except.ok send →
      m.value_of "duration" = some rawD →
      P.parse_duration rawD = Except.ok dur →
      m.value_of "waiting" = some rawW →
      P.parse_duration rawW = Except.ok wait →
      m.value_of "periodicity" = some rawP →
      P.parse_duration rawP = Except.error e →
      from_matches P m = some (Except.error (ArgsConfigError.Periodicity e))) := by
  refine ⟨?_, ?_, ?_, ?_, ?_, ?_, ?_, ?_⟩
  · intro rawL e hL hpL
    simp [from_matches, hL, hpL]
  · intro rawL n hL hpL hlt
    simp [from_matches, hL, hpL, hlt]
  · intro rawL n hL hpL hge hgt
    simp [from_matches, hL, hpL, Nat.not_lt.mpr hge, hgt]
  · intro rawL n rawR e hL hpL hge hle hR hpR
    simp [from_matches, hL, hpL, Nat.not_lt.mpr hge, Nat.not_lt.mpr hle, hR, hpR]
  · intro rawL n rawR recv rawS e hL hpL hge hle hR hpR hS hpS
    simp [from_matches, hL, hpL, Nat.not_lt.mpr hge, Nat.not_lt.mpr hle,
      hR, hpR, hS, hpS]
  · intro rawL n rawR recv rawS send rawD e hL hpL hge hle hR hpR hS hpS hD hpD
    simp [from_matches, hL, hpL, Nat.not_lt.mpr hge, Nat.not_lt.mpr hle,
      hR, hpR, hS, hpS, hD, hpD]
  · intro rawL n rawR recv rawS send rawD dur rawW e hL hpL hge hle hR hpR hS
      hpS hD hpD hW hpW
    simp [from_matches, hL, hpL, Nat.not_lt.mpr hge, Nat.not_lt.mpr hle,
      hR, hpR, hS, hpS, hD, hpD, hW, hpW]
  · intro rawL n rawR recv rawS send rawD dur rawW wait rawP e hL hpL hge hle
      hR hpR hS hpS hD hpD hW hpW hQ hpQ
    simp [from_matches, hL, hpL, Nat.not_lt.mpr hge, Nat.not_lt.mpr hle,
      hR, hpR, hS, hpS, hD, hpD, hW, hpW, hQ, hpQ]

/-- An argument source whose length and receiver are both invalid (and
whose other fields are absent). -/
def bothBadMatches : ArgMatches :=
  { value_of := fun s =>
      if s = "length" then some "abc"
      else if s = "receiver" then some "not-an-address"
      else none }

/-- Witness for the claim C1 theorem: with length `"abc"` and receiver
`"not-an-address"` both invalid (and the remaining fields absent), the
result is the `Length` error. -/
theorem from_matches_first_error_witness :
    from_matches tableParsers bothBadMatches = some (Except.error
      (ArgsConfigError.Length (PacketLengthError.InvalidFormat
        ⟨IntErrorKind.InvalidDigit⟩))) :=
  (from_matches_first_error tableParsers bothBadMatches).1 "abc"
    ⟨IntErrorKind.InvalidDigit⟩ rfl rfl

/-- Claim C2: for every integer n with 1 ≤ n ≤ 65000, calling
`from_matches` with the length field set to the decimal string for n
(`Nat.repr n`) and all other five fields individually valid returns `Ok`,
and the resulting config's `length` field equals n. -/
theorem from_matches_length_in_range (P : Parsers) (m : ArgMatches) (n : Nat)
    (rawR rawS rawD rawW rawP : String)
    (recv send : SocketAddr) (dur wait per : Duration)
    (hn1 : 1 ≤ n) (hn2 : n ≤ 65000)
    (hL : m.value_of "length" = some (Nat.repr n))
    (hR : m.value_of "receiver" = some rawR)
    (hpR : P.parseSocketAddr rawR = Except.ok recv)
    (hS : m.value_of "sender" = some rawS)
    (hpS : P.parseSocketAddr rawS = Except.ok send)
    (hD : m.value_of "duration" = some rawD)
    (hpD : P.parse_duration rawD = Except.ok dur)
    (hW : m.value_of "waiting" = some rawW)
    (hpW : P.parse_duration rawW = Except.ok wait)
    (hP : m.value_of "periodicity" = some rawP)
    (hpP : P.parse_duration rawP = Except.ok per) :
    from_matches P m = some (Except.ok
      { receiver := recv, sender := send, duration := dur,
        length := n, waiting := wait, periodicity := per }) :=
  from_matches_ok_of P m (Nat.repr n) rawR rawS rawD rawW rawP n
    recv send dur wait per hL
    (parseUsize_repr n (le_trans hn2 (by norm_num [USIZE_MAX])))
    hn1 hn2 hR hpR hS hpS hD hpD hW hpW hP hpP

/-- Witness for the claim C2 theorem at n = 1024 over `goodMatches`. -/
theorem from_matches_length_in_range_witness :
    from_matches tableParsers goodMatches = some (Except.ok
      { receiver := ⟨[127, 0, 0, 1], 8080⟩, sender := ⟨[0, 0, 0, 0], 0⟩,
        duration := ⟨5, 0⟩, length := 1024, waiting := ⟨0, 10000000⟩,
        periodicity := ⟨7, 0⟩ }) :=
  from_matches_length_in_range tableParsers goodMatches 1024
    "127.0.0.1:8080" "0.0.0.0:0" "5s" "10ms" "7s"
    ⟨[127, 0, 0, 1], 8080⟩ ⟨[0, 0, 0, 0], 0⟩ ⟨5, 0⟩ ⟨0, 10000000⟩ ⟨7, 0⟩
    (by omega) (by omega) rfl rfl rfl rfl rfl rfl rfl rfl rfl rfl rfl

/-- Claim C3: length `"0"` yields `Length Underflow`, length `"65001"`
yields `Length Overflow`, and the non-integer length `"abc"` yields
`Length (InvalidFormat _)` (here with the `InvalidDigit` kind), in every
case regardless of the other fields' values (the other fields of the
three sources are unconstrained). -/
theorem from_matches_length_examples (P : Parsers) (m0 m1 m2 : ArgMatches)
    (h0 : m0.value_of "length" = some "0")
    (h1 : m1.value_of "length" = some "65001")
    (h2 : m2.value_of "length" = some "abc") :
    from_matches P m0 = some (Except.error
      (ArgsConfigError.Length PacketLengthError.Underflow)) ∧
    from_matches P m1 = some (Except.error
      (ArgsConfigError.Length PacketLengthError.Overflow)) ∧
    from_matches P m2 = some (Except.error
      (ArgsConfigError.Length (PacketLengthError.InvalidFormat
        ⟨IntErrorKind.InvalidDigit⟩))) := by
  refine ⟨?_, ?_, ?_⟩
  · have hp : parseUsize "0" = Except.ok 0 := rfl
    simp [from_matches, h0, hp, MIN_PACKET_LENGTH]
  · have hp : parseUsize "65001" = Except.ok 65001 := rfl
    simp [from_matches, h1, hp, MIN_PACKET_LENGTH, MAX_PACKET_LENGTH]
  · have hp : parseUsize "abc" = Except.error ⟨IntErrorKind.InvalidDigit⟩ := rfl
    simp [from_matches, h2, hp]

/-- An argument source with length `"0"` and no other values. -/
def zeroLengthMatches : ArgMatches :=
  { value_of := fun s => if s = "length" then some "0" else none }

/-- An argument source with length `"65001"` and no other values. -/
def overLengthMatches : ArgMatches :=
  { value_of := fun s => if s = "length" then some "65001" else none }

/-- An argument source with length `"abc"` and no other values. -/
def abcLengthMatches : ArgMatches :=
  { value_of := fun s => if s = "length" then some "abc" else none }

/-- Witness for the claim C3 theorem on three concrete sources. -/
theorem from_matches_length_examples_witness :
    from_matches tableParsers zeroLengthMatches = some (Except.error
      (ArgsConfigError.Length PacketLengthError.Underflow)) ∧
    from_matches tableParsers overLengthMatches = some (Except.error
      (ArgsConfigError.Length PacketLengthError.Overflow)) ∧
    from_matches tableParsers abcLengthMatches = some (Except.error
      (ArgsConfigError.Length (PacketLengthError.InvalidFormat
        ⟨IntErrorKind.InvalidDigit⟩))) :=
  from_matches_length_examples tableParsers zeroLengthMatches
    overLengthMatches abcLengthMatches rfl rfl rfl

/-- Claim C4: round-trip — whenever all six raw strings are individually
valid, `from_matches` returns `Ok` and each field of the resulting config
equals the value produced by that field's primitive parser on its raw
string, with no further transformation. -/
theorem from_matches_round_trip (P : Parsers) (m : ArgMatches)
    (rawL rawR rawS rawD rawW rawP : String) (n : Nat)
    (recv send : SocketAddr) (dur wait per : Duration)
    (hL : m.value_of "length" = some rawL)
    (hpL : parseUsize rawL = Except.ok n)
    (hn1 : MIN_PACKET_LENGTH ≤ n) (hn2 : n ≤ MAX_PACKET_LENGTH)
    (hR : m.value_of "receiver" = some rawR)
    (hpR : P.parseSocketAddr rawR = Except.ok recv)
    (hS : m.value_of "sender" = some rawS)
    (hpS : P.parseSocketAddr rawS = Except.ok send)
    (hD : m.value_of "duration" = some rawD)
    (hpD : P.parse_duration rawD = Except.ok dur)
    (hW : m.value_of "waiting" = some rawW)
    (hpW : P.parse_duration rawW = Except.ok wait)
    (hP : m.value_of "periodicity" = some rawP)
    (hpP : P.parse_duration rawP = Except.ok per) :
    from_matches P m = some (Except.ok
      { receiver := recv, sender := send, duration := dur,
        length := n, waiting := wait, periodicity := per }) :=
  from_matches_ok_of P m rawL rawR rawS rawD rawW rawP n
    recv send dur wait per hL hpL hn1 hn2 hR hpR hS hpS hD hpD hW hpW hP hpP

/-- Witness for the claim C4 theorem over `goodMatches`. -/
theorem from_matches_round_trip_witness :
    from_matches tableParsers goodMatches = some (Except.ok
      { receiver := ⟨[127, 0, 0, 1], 8080⟩, sender := ⟨[0, 0, 0, 0], 0⟩,
        duration := ⟨5, 0⟩, length := 1024, waiting := ⟨0, 10000000⟩,
        periodicity := ⟨7, 0⟩ }) :=
  from_matches_round_trip tableParsers goodMatches
    "1024" "127.0.0.1:8080" "0.0.0.0:0" "5s" "10ms" "7s" 1024
    ⟨[127, 0, 0, 1], 8080⟩ ⟨[0, 0, 0, 0], 0⟩ ⟨5, 0⟩ ⟨0, 10000000⟩ ⟨7, 0⟩
    rfl rfl (by decide) (by decide) rfl rfl rfl rfl rfl rfl rfl rfl rfl rfl

/-- The exact wording templates of spec section 6 for `ConfigError`,
with the underlying error's own message substituted for the placeholder. -/
def specTemplateArgsConfigError : ArgsConfigError → String
  | ArgsConfigError.Receiver error =>
    "An invalid receiver address was specified: " ++ error.display ++ "!"
  | ArgsConfigError.Sender error =>
    "An invalid sender address was specified: " ++ error.display ++ "!"
  | ArgsConfigError.Duration error =>
    "An invalid duration format was specified: " ++ error.display ++ "!"
  | ArgsConfigError.Length error =>
    "An invalid packet length was specified: " ++ error.display ++
      ". A packet length must be in the range of [1; 65000]!"
  | ArgsConfigError.Waiting error =>
    "An invalid waiting duration was specified: " ++ error.display ++ "!"
  | ArgsConfigError.Periodicity error =>
    "An invalid periodicity was specified: " ++ error.display ++ "!"

/-- The exact wording templates of spec section 6 for the nested
`PacketLengthError`: `Overflow occurred`, `Underflow occurred`, or the
underlying integer-parse error's own message verbatim. -/
def specTemplatePacketLengthError : PacketLengthError → String
  | PacketLengthError.InvalidFormat error => error.display
  | PacketLengthError.Overflow => "Overflow occurred"
  | PacketLengthError.Underflow => "Underflow occurred"

/-- Claim C5: the display rendering of every error value matches the exact
templates of spec section 6 (one space between the two sentences of the
`Length` message), and the nested `PacketLengthError` renders as
`Overflow occurred`, `Underflow occurred`, or the underlying
integer-parse error's message verbatim. -/
theorem display_matches_spec_templates :
    (∀ e : ArgsConfigError, e.display = specTemplateArgsConfigError e) ∧
    (∀ e : PacketLengthError, e.display = specTemplatePacketLengthError e) :=
  ⟨fun e => by cases e <;> rfl, fun e => by cases e <;> rfl⟩

/-- Claim C8: no cross-field validation — for any combination of six
individually valid raw values the build succeeds.  No hypothesis relates
one field to another: the receiver raw string may equal the sender raw
string, and the three durations are unconstrained relative to each
other. -/
theorem from_matches_no_cross_field (P : Parsers) (m : ArgMatches)
    (rawL rawR rawS rawD rawW rawP : String) (n : Nat)
    (recv send : SocketAddr) (dur wait per : Duration)
    (hL : m.value_of "length" = some rawL)
    (hpL : parseUsize rawL = Except.ok n)
    (hn1 : MIN_PACKET_LENGTH ≤ n) (hn2 : n ≤ MAX_PACKET_LENGTH)
    (hR : m.value_of "receiver" = some rawR)
    (hpR : P.parseSocketAddr rawR = Except.ok recv)
    (hS : m.value_of "sender" = some rawS)
    (hpS : P.parseSocketAddr rawS = Except.ok send)
    (hD : m.value_of "duration" = some rawD)
    (hpD : P.parse_duration rawD = Except.ok dur)
    (hW : m.value_of "waiting" = some rawW)
    (hpW : P.parse_duration rawW = Except.ok wait)
    (hP : m.value_of "periodicity" = some rawP)
    (hpP : P.parse_duration rawP = Except.ok per) :
    ∃ config, from_matches P m = some (Except.ok config) :=
  ⟨_, from_matches_ok_of P m rawL rawR rawS rawD rawW rawP n
    recv send dur wait per hL hpL hn1 hn2 hR hpR hS hpS hD hpD hW hpW hP hpP⟩

/-- An argument source in which the receiver equals the sender and the
waiting delay (7s) exceeds the total duration (5s). -/
def crossMatches : ArgMatches :=
  { value_of := fun s =>
      if s = "length" then some "65000"
      else if s = "receiver" then some "127.0.0.1:8080"
      else if s = "sender" then some "127.0.0.1:8080"
      else if s = "duration" then some "5s"
      else if s = "waiting" then some "7s"
      else if s = "periodicity" then some "5s"
      else none }

/-- Witness for the claim C8 theorem: receiver = sender and
waiting > duration still build successfully. -/
theorem from_matches_no_cross_field_witness :
    ∃ config, from_matches tableParsers crossMatches = some (Except.ok config) :=
  from_matches_no_cross_field tableParsers crossMatches
    "65000" "127.0.0.1:8080" "127.0.0.1:8080" "5s" "7s" "5s" 65000
    ⟨[127, 0, 0, 1], 8080⟩ ⟨[127, 0, 0, 1], 8080⟩ ⟨5, 0⟩ ⟨7, 0⟩ ⟨5, 0⟩
    rfl rfl (by decide) (by decide) rfl rfl rfl rfl rfl rfl rfl rfl rfl rfl

/-- Claim C9: determinism — `from_matches` is a function of its argument
source alone: two calls on sources that answer every lookup identically
return identical results.  (The absence of other observable effects is
reflected by the embedding of `from_matches` as a total function with no
state.) -/
theorem from_matches_deterministic (P : Parsers) (m1 m2 : ArgMatches)
    (h : ∀ s, m1.value_of s = m2.value_of s) :
    from_matches P m1 = from_matches P m2 := by
  cases m1 with
  | mk f =>
    cases m2 with
    | mk g =>
      have hfg : f = g := funext h
      rw [hfg]

/-- Witness for the claim C9 theorem: two textually distinct but
extensionally equal sources give the same result. -/
theorem from_matches_deterministic_witness :
    from_matches tableParsers goodMatches =
      from_matches tableParsers goodMatches :=
  from_matches_deterministic tableParsers goodMatches goodMatches
    (fun _ => rfl)

/-- Claim C6: atomicity of construction — an `Ok` result is produced only
with every one of the six fields validated: the length raw string parses
to exactly the config's in-range `length`, and each remaining field of
the config is exactly the output of its parser on the looked-up raw
string.  (That an `Err` result carries a single `ArgsConfigError` and no
configuration state is immediate from the result type.) -/
theorem from_matches_atomic (P : Parsers) (m : ArgMatches) (cfg : ArgsConfig)
    (h : from_matches P m = some (Except.ok cfg)) :
    (∃ rawL, m.value_of "length" = some rawL ∧
      parseUsize rawL = Except.ok cfg.length) ∧
    MIN_PACKET_LENGTH ≤ cfg.length ∧ cfg.length ≤ MAX_PACKET_LENGTH ∧
    (∃ rawR, m.value_of "receiver" = some rawR ∧
      P.parseSocketAddr rawR = Except.ok cfg.receiver) ∧
    (∃ rawS, m.value_of "sender" = some rawS ∧
      P.parseSocketAddr rawS = Except.ok cfg.sender) ∧
    (∃ rawD, m.value_of "duration" = some rawD ∧
      P.parse_duration rawD = Except.ok cfg.duration) ∧
    (∃ rawW, m.value_of "waiting" = some rawW ∧
      P.parse_duration rawW = Except.ok cfg.waiting) ∧
    (∃ rawQ, m.value_of "periodicity" = some rawQ ∧
      P.parse_duration rawQ = Except.ok cfg.periodicity) := by
  unfold from_matches at h
  split at h
  · exact Option.noConfusion h
  next rawL hL =>
    split at h
    · simp at h
    next n hpL =>
      split at h
      · simp at h
      next hmin =>
        split at h
        · simp at h
        next hmax =>
          split at h
          · exact Option.noConfusion h
          next rawR hR =>
            split at h
            · simp at h
            next recv hpR =>
              split at h
              · exact Option.noConfusion h
              next rawS hS =>
                split at h
                · simp at h
                next send hpS =>
                  split at h
                  · exact Option.noConfusion h
                  next rawD hD =>
                    split at h
                    · simp at h
                    next dur hpD =>
                      split at h
                      · exact Option.noConfusion h
                      next rawW hW =>
                        split at h
                        · simp at h
                        next wait hpW =>
                          split at h
                          · exact Option.noConfusion h
                          next rawQ hQ =>
                            split at h
                            · simp at h
                            next per hpQ =>
                              injection h with h1
                              injection h1 with h2
                              subst h2
                              exact ⟨⟨rawL, hL, hpL⟩,
                                Nat.not_lt.mp hmin, Nat.not_lt.mp hmax,
                                ⟨rawR, hR, hpR⟩, ⟨rawS, hS, hpS⟩,
                                ⟨rawD, hD, hpD⟩, ⟨rawW, hW, hpW⟩,
                                ⟨rawQ, hQ, hpQ⟩⟩

/-- Witness for the claim C6 theorem at the fully valid `goodMatches`. -/
theorem from_matches_atomic_witness :
    (∃ rawL, goodMatches.value_of "length" = some rawL ∧
      parseUsize rawL = Except.ok (1024 : Nat)) ∧
    MIN_PACKET_LENGTH ≤ (1024 : Nat) ∧ (1024 : Nat) ≤ MAX_PACKET_LENGTH ∧
    (∃ rawR, goodMatches.value_of "receiver" = some rawR ∧
      tableParsers.parseSocketAddr rawR = Except.ok ⟨[127, 0, 0, 1], 8080⟩) ∧
    (∃ rawS, goodMatches.value_of "sender" = some rawS ∧
      tableParsers.parseSocketAddr rawS = Except.ok ⟨[0, 0, 0, 0], 0⟩) ∧
    (∃ rawD, goodMatches.value_of "duration" = some rawD ∧
      tableParsers.parse_duration rawD = Except.ok ⟨5, 0⟩) ∧
    (∃ rawW, goodMatches.value_of "waiting" = some rawW ∧
      tableParsers.parse_duration rawW = Except.ok ⟨0, 10000000⟩) ∧
    (∃ rawQ, goodMatches.value_of "periodicity" = some rawQ ∧
      tableParsers.parse_duration rawQ = Except.ok ⟨7, 0⟩) :=
  from_matches_atomic tableParsers goodMatches
    { receiver := ⟨[127, 0, 0, 1], 8080⟩, sender := ⟨[0, 0, 0, 0], 0⟩,
      duration := ⟨5, 0⟩, length := 1024, waiting := ⟨0, 10000000⟩,
      periodicity := ⟨7, 0⟩ } rfl

/-- Every value accepted by the digit loop is bounded by the machine
word: the loop overflow-checks each step. -/
theorem fromStrRadixLoop_le (l : List Char) :
    ∀ acc v, acc ≤ USIZE_MAX → fromStrRadixLoop l acc = Except.ok v →
      v ≤ USIZE_MAX := by
  induction l with
  | nil =>
    intro acc v hacc h
    simp only [fromStrRadixLoop] at h
    injection h with h1
    omega
  | cons c cs ih =>
    intro acc v hacc h
    simp only [fromStrRadixLoop] at h
    cases hdv : digitVal c with
    | none =>
      rw [hdv] at h
      exact Except.noConfusion h
    | some d =>
      simp only [hdv] at h
      split at h
      · exact Except.noConfusion h
      next hov => exact ih _ v (Nat.not_lt.mp hov) h

/-- Every successfully parsed length is representable in the unsigned
machine word. -/
theorem parseUsize_le (s : String) (n : Nat) (h : parseUsize s = Except.ok n) :
    n ≤ USIZE_MAX := by
  unfold parseUsize at h
  split at h
  · exact Except.noConfusion h
  next c cs hs =>
    dsimp only at h
    by_cases hemp : (if c = '+' then cs else c :: cs).isEmpty = true
    · rw [if_pos hemp] at h
      exact Except.noConfusion h
    · rw [if_neg hemp] at h
      exact fromStrRadixLoop_le _ 0 n (Nat.zero_le _) h

/-- Inversion: a `Length` error can only come from the length-validation
step, with its three sub-cases tied to the outcome of `parseUsize` on the
looked-up raw string. -/
theorem from_matches_length_error_inv (P : Parsers) (m : ArgMatches)
    (e : PacketLengthError)
    (h : from_matches P m = some (Except.error (ArgsConfigError.Length e))) :
    ∃ rawL, m.value_of "length" = some rawL ∧
      ((∃ pe, parseUsize rawL = Except.error pe ∧
        e = PacketLengthError.InvalidFormat pe) ∨
      (∃ n, parseUsize rawL = Except.ok n ∧ n < MIN_PACKET_LENGTH ∧
        e = PacketLengthError.Underflow) ∨
      (∃ n, parseUsize rawL = Except.ok n ∧ MAX_PACKET_LENGTH < n ∧
        e = PacketLengthError.Overflow)) := by
  unfold from_matches at h
  split at h
  · exact Option.noConfusion h
  next rawL hL =>
    refine ⟨rawL, hL, ?_⟩
    split at h
    next pe hpe =>
      left
      refine ⟨pe, hpe, ?_⟩
      simp at h
      exact h.symm
    next n hpn =>
      split at h
      next hlt =>
        right; left
        refine ⟨n, hpn, hlt, ?_⟩
        simp at h
        exact h.symm
      next hge =>
        split at h
        next hgt =>
          right; right
          refine ⟨n, hpn, hgt, ?_⟩
          simp at h
          exact h.symm
        next hle =>
          exfalso
          split at h
          · exact Option.noConfusion h
          next =>
            split at h
            · simp at h
            next =>
              split at h
              · exact Option.noConfusion h
              next =>
                split at h
                · simp at h
                next =>
                  split at h
                  · exact Option.noConfusion h
                  next =>
                    split at h
                    · simp at h
                    next =>
                      split at h
                      · exact Option.noConfusion h
                      next =>
                        split at h
                        · simp at h
                        next =>
                          split at h
                          · exact Option.noConfusion h
                          next =>
                            split at h
                            · simp at h
                            next => simp at h

/-- Claim C7: the range sub-errors are produced only when the integer
parse of the length string succeeds: with the length raw string present,
the result is the `Underflow` error exactly when the string parses to 0,
and the `Overflow` error exactly when it parses to a value above 65000
(such a value is necessarily representable: every parsed value is at most
`USIZE_MAX`); when the parse fails — as on `"-1"` or on a numeral
exceeding the machine word — the result is the `InvalidFormat` error,
never `Overflow` or `Underflow`. -/
theorem from_matches_length_suberrors (P : Parsers) (m : ArgMatches)
    (rawL : String) (hL : m.value_of "length" = some rawL) :
    (from_matches P m = some (Except.error
        (ArgsConfigError.Length PacketLengthError.Underflow)) ↔
      parseUsize rawL = Except.ok 0) ∧
    (from_matches P m = some (Except.error
        (ArgsConfigError.Length PacketLengthError.Overflow)) ↔
      ∃ n, parseUsize rawL = Except.ok n ∧ MAX_PACKET_LENGTH < n ∧
        n ≤ USIZE_MAX) ∧
    (∀ e, parseUsize rawL = Except.error e →
      from_matches P m = some (Except.error
        (ArgsConfigError.Length (PacketLengthError.InvalidFormat e)))) := by
  refine ⟨⟨?_, ?_⟩, ⟨?_, ?_⟩, ?_⟩
  · intro h
    obtain ⟨rawL', hL', hcases⟩ := from_matches_length_error_inv P m _ h
    rw [hL] at hL'
    injection hL' with he
    subst he
    rcases hcases with ⟨pe, _, habs⟩ | ⟨n, hpn, hlt, _⟩ | ⟨n, _, _, habs⟩
    · exact absurd habs (by simp)
    · have h1 : n < 1 := hlt
      have h0 : n = 0 := by omega
      subst h0
      exact hpn
    · exact absurd habs (by simp)
  · intro h
    simp [from_matches, hL, h, MIN_PACKET_LENGTH]
  · intro h
    obtain ⟨rawL', hL', hcases⟩ := from_matches_length_error_inv P m _ h
    rw [hL] at hL'
    injection hL' with he
    subst he
    rcases hcases with ⟨pe, _, habs⟩ | ⟨n, _, _, habs⟩ | ⟨n, hpn, hgt, _⟩
    · exact absurd habs (by simp)
    · exact absurd habs (by simp)
    · exact ⟨n, hpn, hgt, parseUsize_le rawL n hpn⟩
  · intro h
    obtain ⟨n, hpn, hgt, _⟩ := h
    have h1 : (65000 : Nat) < n := hgt
    have h2 : ¬n < 1 := by omega
    simp [from_matches, hL, hpn, MIN_PACKET_LENGTH, MAX_PACKET_LENGTH, h1, h2]
  · intro e hpe
    simp [from_matches, hL, hpe]

/-- Witness for the claim C7 theorem at the source with length `"0"`. -/
theorem from_matches_length_suberrors_witness :
    (from_matches tableParsers zeroLengthMatches = some (Except.error
        (ArgsConfigError.Length PacketLengthError.Underflow)) ↔
      parseUsize "0" = Except.ok 0) ∧
    (from_matches tableParsers zeroLengthMatches = some (Except.error
        (ArgsConfigError.Length PacketLengthError.Overflow)) ↔
      ∃ n, parseUsize "0" = Except.ok n ∧ MAX_PACKET_LENGTH < n ∧
        n ≤ USIZE_MAX) ∧
    (∀ e, parseUsize "0" = Except.error e →
      from_matches tableParsers zeroLengthMatches = some (Except.error
        (ArgsConfigError.Length (PacketLengthError.InvalidFormat e)))) :=
  from_matches_length_suberrors tableParsers zeroLengthMatches "0" rfl

/-- Claim C10 (amended): under the precondition that the source yields a
string for every one of the six field names, `from_matches` never hits
the missing-value branch — a panic (`none`) occurs only when some field
name has no value.  Conversely a missing field triggers the `unwrap`
panic exactly when it is reached, i.e. when every field before it in the
validation order validates successfully; a field missing after a failing
field is not reached, and the earlier field's error is returned
instead. -/
theorem from_matches_missing_value (P : Parsers) (m : ArgMatches) :
    (from_matches P m = none →
      m.value_of "length" = none ∨ m.value_of "receiver" = none ∨
      m.value_of "sender" = none ∨ m.value_of "duration" = none ∨
      m.value_of "waiting" = none ∨ m.value_of "periodicity" = none) ∧
    (m.value_of "length" = none → from_matches P m = none) ∧
    (∀ rawL n, m.value_of "length" = some rawL →
      parseUsize rawL = Except.ok n → MIN_PACKET_LENGTH ≤ n →
      n ≤ MAX_PACKET_LENGTH → m.value_of "receiver" = none →
      from_matches P m = none) ∧
    (∀ rawL n rawR recv, m.value_of "length" = some rawL →
      parseUsize rawL = Except.ok n → MIN_PACKET_LENGTH ≤ n →
      n ≤ MAX_PACKET_LENGTH →
      m.value_of "receiver" = some rawR →
      P.parseSocketAddr rawR = Except.ok recv →
      m.value_of "sender" = none →
      from_matches P m = none) ∧
    (∀ rawL n rawR recv rawS send, m.value_of "length" = some rawL →
      parseUsize rawL = Except.ok n → MIN_PACKET_LENGTH ≤ n →
      n ≤ MAX_PACKET_LENGTH →
      m.value_of "receiver" = some rawR →
      P.parseSocketAddr rawR = Except.ok recv →
      m.value_of "sender" = some rawS →
      P.parseSocketAddr rawS = Except.ok send →
      m.value_of "duration" = none →
      from_matches P m = none) ∧
    (∀ rawL n rawR recv rawS send rawD dur,
      m.value_of "length" = some rawL →
      parseUsize rawL = Except.ok n → MIN_PACKET_LENGTH ≤ n →
      n ≤ MAX_PACKET_LENGTH →
      m.value_of "receiver" = some rawR →
      P.parseSocketAddr rawR = Except.ok recv →
      m.value_of "sender" = some rawS →
      P.parseSocketAddr rawS = Except.ok send →
      m.value_of "duration" = some rawD →
      P.parse_duration rawD = Except.ok dur →
      m.value_of "waiting" = none →
      from_matches P m = none) ∧
    (∀ rawL n rawR recv rawS send rawD dur rawW wait,
      m.value_of "length" = some rawL →
      parseUsize rawL = Except.ok n → MIN_PACKET_LENGTH ≤ n →
      n ≤ MAX_PACKET_LENGTH →
      m.value_of "receiver" = some rawR →
      P.parseSocketAddr rawR = Except.ok recv →
      m.value_of "sender" = some rawS →
      P.parseSocketAddr rawS = Except.ok send →
      m.value_of "duration" = some rawD →
      P.parse_duration rawD = Except.ok dur →
      m.value_of "waiting" = some rawW →
      P.parse_duration rawW = Except.ok wait →
      m.value_of "periodicity" = none →
      from_matches P m = none) := by
  refine ⟨?_, ?_, ?_, ?_, ?_, ?_, ?_⟩
  · intro h
    unfold from_matches at h
    split at h
    next hL => exact Or.inl hL
    next rawL hL =>
      split at h
      · simp at h
      next n hpL =>
        split at h
        · simp at h
        next hmin =>
          split at h
          · simp at h
          next hmax =>
            split at h
            next hR => exact Or.inr (Or.inl hR)
            next rawR hR =>
              split at h
              · simp at h
              next recv hpR =>
                split at h
                next hS => exact Or.inr (Or.inr (Or.inl hS))
                next rawS hS =>
                  split at h
                  · simp at h
                  next send hpS =>
                    split at h
                    next hD => exact Or.inr (Or.inr (Or.inr (Or.inl hD)))
                    next rawD hD =>
                      split at h
                      · simp at h
                      next dur hpD =>
                        split at h
                        next hW =>
                          exact Or.inr (Or.inr (Or.inr (Or.inr (Or.inl hW))))
                        next rawW hW =>
                          split at h
                          · simp at h
                          next wait hpW =>
                            split at h
                            next hQ =>
                              exact Or.inr (Or.inr (Or.inr (Or.inr (Or.inr hQ))))
                            next rawQ hQ =>
                              split at h
                              · simp at h
                              next per hpQ => simp at h
  · intro hL
    simp [from_matches, hL]
  · intro rawL n hL hpL hge hle hR
    simp [from_matches, hL, hpL, Nat.not_lt.mpr hge, Nat.not_lt.mpr hle, hR]
  · intro rawL n rawR recv hL hpL hge hle hR hpR hS
    simp [from_matches, hL, hpL, Nat.not_lt.mpr hge, Nat.not_lt.mpr hle,
      hR, hpR, hS]
  · intro rawL n rawR recv rawS send hL hpL hge hle hR hpR hS hpS hD
    simp [from_matches, hL, hpL, Nat.not_lt.mpr hge, Nat.not_lt.mpr hle,
      hR, hpR, hS, hpS, hD]
  · intro rawL n rawR recv rawS send rawD dur hL hpL hge hle hR hpR hS hpS
      hD hpD hW
    simp [from_matches, hL, hpL, Nat.not_lt.mpr hge, Nat.not_lt.mpr hle,
      hR, hpR, hS, hpS, hD, hpD, hW]
  · intro rawL n rawR recv rawS send rawD dur rawW wait hL hpL hge hle hR
      hpR hS hpS hD hpD hW hpW hQ
    simp [from_matches, hL, hpL, Nat.not_lt.mpr hge, Nat.not_lt.mpr hle,
      hR, hpR, hS, hpS, hD, hpD, hW, hpW, hQ]

/-- Counterexample to claim C10 as stated: a source that violates the
precondition — the receiver (and every field but length) has no value —
on which `from_matches` does not panic but returns a `ConfigError`: the
length field fails first, so the missing receiver value is never
reached. -/
theorem from_matches_missing_value_counterexample :
    abcLengthMatches.value_of "receiver" = none ∧
    from_matches tableParsers abcLengthMatches = some (Except.error
      (ArgsConfigError.Length (PacketLengthError.InvalidFormat
        ⟨IntErrorKind.InvalidDigit⟩))) :=
  ⟨rfl, rfl⟩

/-- A source with a valid length and nothing else. -/
def receiverlessMatches : ArgMatches :=
  { value_of := fun s => if s = "length" then some "1024" else none }

/-- Witness for the (amended) claim C10 theorem: with a valid length and
a missing receiver, the lookup of the receiver is reached and
`from_matches` panics. -/
theorem from_matches_missing_value_witness :
    from_matches tableParsers receiverlessMatches = none :=
  (from_matches_missing_value tableParsers receiverlessMatches).2.2.1
    "1024" 1024 rfl rfl (by decide) (by decide) rfl

end Anevicon
